import Mathlib

/-!
Verification of the sql-similarity tree-comparison engine.

The development shallowly embeds the domain, service and presentation layers
of the repository:

* `EditOperation`, `ComparisonResult`, `compute_score`, `interpret_mapping`,
  `_get_label`, `_get_node_type`, `_get_tree_path` embed
  `src/sql_similarity/domain/comparator.py`;
* `parse_sql` embeds `src/sql_similarity/domain/parser.py`, with the external
  ANTLR machinery abstracted as a total function returning a parse tree
  together with the list of collected syntax errors;
* `PairComparison`, `FileError`, `BatchComparisonResult`, `compare_all_pairs`,
  `filter_by_max_distance`, `filter_by_top` embed
  `src/sql_similarity/service/batch.py`, with file reading and parsing
  abstracted as a per-file function and the APTED alignment as a parameter;
* `ComparisonService.compare` embeds `src/sql_similarity/service/comparison.py`;
* `csv_row` / `format_batch_csv` embed the attribute accesses of
  `src/sql_similarity/presentation/batch_formatter.py`.

Python `int` is embedded as `ℤ`, Python `float` arithmetic as exact `ℚ`
arithmetic, and Python's stable `list.sort(key=...)` / `sorted(...)` as the
stable insertion sort `pysort`.
-/

/-- A sqlglot expression node, as the comparator observes it: its class name
(`type(node).__name__`, used as the label), whether it is an instance of
`exp.Literal` or `exp.Identifier` (the `isinstance` test of `_get_node_type`),
and the labels of its ancestors from its parent up to the root (the chain the
`while` loop of `_get_tree_path` walks through `.parent`). -/
structure SGNode where
  className : String
  isLitOrId : Bool
  ancestry : List String
deriving DecidableEq, Repr

/-- The `EditOperation` dataclass of `domain/comparator.py`. -/
structure EditOperation where
  type : String
  source_node : Option String
  target_node : Option String
  node_type : Option String
  tree_path : Option String
deriving DecidableEq, Repr

/-- The `ComparisonResult` dataclass of `domain/comparator.py`. -/
structure ComparisonResult where
  distance : ℤ
  operations : List EditOperation
  score : ℚ
deriving DecidableEq, Repr

/-- Embeds `SQLGlotConfig._get_label`: the class name of the expression. -/
def _get_label (node : SGNode) : String :=
  node.className

/-- Embeds `_get_node_type`: `'terminal'` for `Literal`/`Identifier` nodes,
`'rule'` for other expressions. -/
def _get_node_type (node : SGNode) : String :=
  if node.isLitOrId then "terminal" else "rule"

/-- Embeds `_get_tree_path`: collect labels from the node up through `.parent` to the
root, reverse to root-to-node order, drop the node itself, and join with
`" > "`; the empty string when there is at most one part. -/
def _get_tree_path (node : SGNode) : String :=
  let path_parts := (node.className :: node.ancestry).reverse
  if path_parts.length > 1 then String.intercalate (" > ") path_parts.dropLast
  else ""

/-- The label `_get_label` computes through through Python's `None`-permissive call in the
insert branch of `interpret_mapping`: `type(None).__name__` is `"NoneType"`. -/
def _get_label_opt : Option SGNode → String
  | some n => _get_label n
  | none => "NoneType"

/-- Node type of a possibly-`None` node: `isinstance(None, ...)` is
false, so `None` is classified `'rule'`. -/
def _get_node_type_opt : Option SGNode → String
  | some n => _get_node_type n
  | none => "rule"

/-- Tree path of a possibly-`None` node: with `current = None` the
`while` loop never runs and the path is empty. -/
def _get_tree_path_opt : Option SGNode → String
  | some n => _get_tree_path n
  | none => ""

/-- The loop body of `interpret_mapping`: the `if node1 is None / elif node2
is None / else` dispatch of the Python code. The first branch fires whenever
`node1 is None`, so a `(None, None)` entry also lands in the insert branch. -/
def interpretEntry : Option SGNode × Option SGNode → EditOperation
  | (none, node2) =>
    ⟨"insert", none, some (_get_label_opt node2), some (_get_node_type_opt node2),
      some (_get_tree_path_opt node2)⟩
  | (some n1, none) =>
    ⟨"delete", some (_get_label n1), none, some (_get_node_type n1),
      some (_get_tree_path n1)⟩
  | (some n1, some n2) =>
    if _get_label n1 = _get_label n2 then
      ⟨"match", some (_get_label n1), some (_get_label n2),
        some (_get_node_type n1), some (_get_tree_path n1)⟩
    else
      ⟨"rename", some (_get_label n1), some (_get_label n2),
        some (_get_node_type n1), some (_get_tree_path n1)⟩

/-- Embeds `interpret_mapping`: convert an APTED mapping (a list of node pairs where
either side may be `None`) into one `EditOperation` per entry, in order. -/
def interpret_mapping : List (Option SGNode × Option SGNode) → List EditOperation
  | [] => []
  | p :: rest => interpretEntry p :: interpret_mapping rest

/-- The per-entry contract C3 states for the edit-script builder, written from
the spec's words: inserts for `(None, nodeB)`, deletes for `(nodeA, None)`,
match/rename for two present nodes according to label equality; a mapping
entry with both sides absent is not allowed. -/
def entrySpec : Option SGNode × Option SGNode → EditOperation → Prop
  | (none, none), _ => False
  | (none, some n2), op =>
    op.type = "insert" ∧ op.source_node = none ∧
      op.target_node = some (_get_label n2)
  | (some n1, none), op =>
    op.type = "delete" ∧ op.source_node = some (_get_label n1) ∧
      op.target_node = none
  | (some n1, some n2), op =>
    (_get_label n1 = _get_label n2 → op.type = "match") ∧
    (_get_label n1 ≠ _get_label n2 → op.type = "rename") ∧
    op.source_node = some (_get_label n1) ∧
      op.target_node = some (_get_label n2)

/-- Embeds `compute_score`: `1 - distance / max(size1, size2)`, and `1.0` when
`max(size1, size2) == 0`. -/
def compute_score (distance : ℤ) (size1 : ℤ) (size2 : ℤ) : ℚ :=
  let max_size := max size1 size2
  if max_size = 0 then 1
  else 1 - (distance : ℚ) / (max_size : ℚ)

/-- One step of Python's stable sort: insert `x` into an already sorted list,
descending past exactly the elements strictly below `x` under `lt`, so that
`x` lands before any element it compares equal to (stability). -/
def insortBy (lt : α → α → Bool) (x : α) : List α → List α
  | [] => [x]
  | y :: ys => if lt y x then y :: insortBy lt x ys else x :: y :: ys

/-- Python's stable `list.sort` / `sorted`, with `lt a b` meaning "`a`'s key is
strictly smaller than `b`'s key": the unique stable sort for that key. -/
def pysort (lt : α → α → Bool) : List α → List α
  | [] => []
  | x :: xs => insortBy lt x (pysort lt xs)

/-- Embeds `itertools.combinations(l, 2)`: all unordered pairs, each pair in list
order, pairs enumerated lexicographically by position. -/
def combinations2 : List α → List (α × α)
  | [] => []
  | x :: xs => xs.map (fun y => (x, y)) ++ combinations2 xs

/-- The `FileError` dataclass of `service/batch.py`. -/
structure FileError where
  file : String
  error : String
deriving DecidableEq, Repr

/-- The `PairComparison` dataclass of `service/batch.py`: exactly the fields
`file1`, `file2`, `distance`, `operations` (no score, no edit count). -/
structure PairComparison where
  file1 : String
  file2 : String
  distance : ℤ
  operations : List EditOperation
deriving DecidableEq, Repr

/-- The `BatchComparisonResult` dataclass of `service/batch.py`. -/
structure BatchComparisonResult where
  directory : String
  files : List String
  comparisons : List PairComparison
  errors : List FileError
deriving DecidableEq, Repr

/-- The parse loop of `compare_all_pairs`: for each filename in order, read
and parse it (abstracted as `parseOf`); on `ParseError` append a `FileError`,
otherwise record the tree under the filename (the `parsed_trees` dict, kept
here as an association list in insertion order). -/
def parseFold {Tree : Type} (parseOf : String → Except String Tree) :
    List String → List FileError × List (String × Tree)
  | [] => ([], [])
  | f :: fs =>
    let rest := parseFold parseOf fs
    match parseOf f with
    | Except.ok t => (rest.1, (f, t) :: rest.2)
    | Except.error e => (⟨f, e⟩ :: rest.1, rest.2)

/-- Comparison order used by `comparisons.sort(key=lambda c: c.distance)`. -/
def distLt (a b : PairComparison) : Bool :=
  decide (a.distance < b.distance)

/-- Lexicographic comparison of character sequences by code point: the order
Python's `<` uses on strings. -/
def strLtAux : List Char → List Char → Bool
  | [], [] => false
  | [], _ :: _ => true
  | _ :: _, [] => false
  | a :: as, b :: bs =>
    if a < b then true
    else if b < a then false
    else strLtAux as bs

/-- String order used by Python's `sorted(valid_files)`: lexicographic by
code point. -/
def strLt (a b : String) : Bool :=
  strLtAux a.data b.data

/-- Body of the pair loop of `compare_all_pairs`: look the two trees up in
the parsed dict, compute distance and mapping (the APTED call, abstracted as
`dist` and `mapOf`), interpret the mapping, and build the `PairComparison`. -/
def mkPairComparison {Tree : Type} [Inhabited Tree] (dist : Tree → Tree → ℤ)
    (mapOf : Tree → Tree → List (Option SGNode × Option SGNode))
    (parsed : List (String × Tree)) (p : String × String) : PairComparison :=
  let t1 := ((parsed.lookup p.1).getD default)
  let t2 := ((parsed.lookup p.2).getD default)
  ⟨p.1, p.2, dist t1 t2, interpret_mapping (mapOf t1 t2)⟩

/-- Embeds `compare_all_pairs` of `service/batch.py`, from the point where the
directory scan has produced the (sorted, deduplicated) list `files`: parse
every file collecting errors, generate `combinations(sorted(valid_files), 2)`,
compare each pair, and stable-sort the comparisons by distance ascending. -/
def compare_all_pairs {Tree : Type} [Inhabited Tree] (directory : String) (files : List String)
    (parseOf : String → Except String Tree) (dist : Tree → Tree → ℤ)
    (mapOf : Tree → Tree → List (Option SGNode × Option SGNode)) :
    BatchComparisonResult :=
  let pf := parseFold parseOf files
  let valid_files := pf.2.map Prod.fst
  let pairs := combinations2 (pysort strLt valid_files)
  let comparisons := pairs.map (mkPairComparison dist mapOf pf.2)
  ⟨directory, files, pysort distLt comparisons, pf.1⟩

/-- Embeds `filter_by_max_distance`: keep comparisons with `distance <= max_distance`
(inclusive). -/
def filter_by_max_distance (comparisons : List PairComparison)
    (max_distance : ℤ) : List PairComparison :=
  comparisons.filter (fun c => c.distance ≤ max_distance)

/-- Embeds `filter_by_top`: the first `top` comparisons (`comparisons[:top]`, with
the CLI guaranteeing `top >= 1`). -/
def filter_by_top (comparisons : List PairComparison) (top : ℕ) :
    List PairComparison :=
  comparisons.take top

/-- The filter pipeline of `run_batch_mode` in `presentation/cli.py`: apply
the max-distance threshold when given, then the top-N truncation when given —
in that order. -/
def run_batch_filters (comparisons : List PairComparison)
    (max_distance : Option ℤ) (top : Option ℕ) : List PairComparison :=
  let filtered :=
    match max_distance with
    | some m => filter_by_max_distance comparisons m
    | none => comparisons
  match top with
  | some t => filter_by_top filtered t
  | none => filtered

/-- The `ParseError` of `domain/parser.py`: message plus optional line/column. -/
structure ParseErrorData where
  message : String
  line : Option ℤ
  column : Option ℤ
deriving DecidableEq, Repr

/-- Embeds `parse_sql` of `domain/parser.py`. The ANTLR lexer/parser pipeline
(external library plus the generated Snowflake grammar, which lives outside
the source tree) is abstracted as `antlr_run`, a total function producing the
parse tree together with the syntax errors the attached `_ErrorCollector`
would collect; ANTLR's default error recovery always yields a tree. When
`raise_on_error` is false no collector is attached and the tree is returned
unconditionally; when true, the first collected error is raised. -/
def parse_sql {Tree : Type} (antlr_run : String → Tree × List ParseErrorData)
    (sql_text : String) (raise_on_error : Bool := false) :
    Except ParseErrorData Tree :=
  let r := antlr_run sql_text
  if raise_on_error then
    match r.2 with
    | [] => Except.ok r.1
    | e :: _ => Except.error e
  else Except.ok r.1

/-- Errors of `service/comparison.py`: `FileNotFoundError(path)` and
`SQLParseError(filename, parse_error)`. -/
inductive CompareError where
  | fileNotFound (path : String)
  | sqlParseError (filename : String) (parse_error : ParseErrorData)
deriving DecidableEq, Repr

/-- Embeds `pathlib.Path(p).name`: the final path component (POSIX separators). -/
def pathName (p : String) : String :=
  (p.splitOn ("/")).getLastD ""

/-- Modelled from the spec: `compare_trees` is imported by
`service/comparison.py` from the comparator module but is absent from the
source tree. Per the spec's data flow — AlignmentEngine → raw mapping →
EditScriptBuilder → EditOperation sequence → SimilarityScorer →
ComparisonResult — it aligns the two trees (alignment abstracted as `align`,
returning the minimum edit distance and the node mapping), interprets the
mapping into the ordered edit script, and attaches the size-normalized
score. -/
def compare_trees {Tree : Type} (align : Tree → Tree → ℤ × List (Option SGNode × Option SGNode))
    (size : Tree → ℤ) (tree1 tree2 : Tree) : ComparisonResult :=
  let r := align tree1 tree2
  ⟨r.1, interpret_mapping r.2, compute_score r.1 (size tree1) (size tree2)⟩

/-- Embeds `ComparisonService.compare` of `service/comparison.py`: check both paths
exist (first path first), read both files, parse each with
`raise_on_error=True` wrapping a `ParseError` into `SQLParseError` with the
file's basename (first file first), then hand both trees to `compare_trees`.
File existence and content are abstracted as `exists?` and `read_text`. -/
def ComparisonService.compare {Tree : Type}
    (exists? : String → Bool) (read_text : String → String)
    (antlr_run : String → Tree × List ParseErrorData)
    (align : Tree → Tree → ℤ × List (Option SGNode × Option SGNode))
    (size : Tree → ℤ) (file1 file2 : String) :
    Except CompareError ComparisonResult :=
  if !(exists? file1) then Except.error (CompareError.fileNotFound file1)
  else if !(exists? file2) then Except.error (CompareError.fileNotFound file2)
  else
    let sql1 := read_text file1
    let sql2 := read_text file2
    match parse_sql antlr_run sql1 true with
    | Except.error e => Except.error (CompareError.sqlParseError (pathName file1) e)
    | Except.ok tree1 =>
      match parse_sql antlr_run sql2 true with
      | Except.error e => Except.error (CompareError.sqlParseError (pathName file2) e)
      | Except.ok tree2 => Except.ok (compare_trees align size tree1 tree2)

/-- A Python attribute value, for modelling dynamic attribute access on the
`PairComparison` dataclass. -/
inductive PyAttr where
  | strV (s : String)
  | intV (i : ℤ)
  | opsV (ops : List EditOperation)
deriving DecidableEq, Repr

/-- Python `getattr` on a `PairComparison` instance: the dataclass of
`service/batch.py` has exactly the attributes `file1`, `file2`, `distance`
and `operations`; any other name raises `AttributeError` (here: `none`). -/
def PairComparison.getattr (c : PairComparison) (a : String) : Option PyAttr :=
  if a = ("file1") then some (PyAttr.strV c.file1)
  else if a = ("file2") then some (PyAttr.strV c.file2)
  else if a = ("distance") then some (PyAttr.intV c.distance)
  else if a = ("operations") then some (PyAttr.opsV c.operations)
  else none

/-- One data row of `format_batch_csv` in `presentation/batch_formatter.py`:
`writer.writerow([c.file1, c.file2, c.score, c.edit_count])`, with each
attribute read modelled through `getattr`; `none` models the
`AttributeError` Python raises when the attribute does not exist. -/
def csv_row (c : PairComparison) : Option (List PyAttr) := do
  let f1 ← c.getattr ("file1")
  let f2 ← c.getattr ("file2")
  let s ← c.getattr ("score")
  let e ← c.getattr ("edit_count")
  pure [f1, f2, s, e]

/-- The row loop of `format_batch_csv`: one row per comparison, failing at
the first missing attribute. -/
def format_batch_csv (result : BatchComparisonResult) :
    Option (List (List PyAttr)) :=
  result.comparisons.mapM csv_row

theorem compute_score_of_max_eq_zero (d s1 s2 : ℤ) (h : max s1 s2 = 0) :
    compute_score d s1 s2 = 1 := by
  simp [compute_score, h]

theorem compute_score_of_max_ne_zero (d s1 s2 : ℤ) (h : max s1 s2 ≠ 0) :
    compute_score d s1 s2 = 1 - (d : ℚ) / ((max s1 s2 : ℤ) : ℚ) := by
  simp [compute_score, h]

/-- C2: `compute_score` returns exactly `1 - d / max(s1, s2)` when
`max(s1, s2) > 0`, and `1.0` when `max(s1, s2) == 0` (no division by
zero). -/
theorem compute_score_formula (d s1 s2 : ℤ) :
    (max s1 s2 = 0 → compute_score d s1 s2 = 1) ∧
    (0 < max s1 s2 →
      compute_score d s1 s2 = 1 - (d : ℚ) / ((max s1 s2 : ℤ) : ℚ)) :=
  ⟨fun h => compute_score_of_max_eq_zero d s1 s2 h,
   fun h => compute_score_of_max_ne_zero d s1 s2 h.ne'⟩

/-- Witness for C2 at `(3, 0, 0)` and `(2, 4, 3)`. -/
theorem compute_score_formula_witness :
    compute_score 3 0 0 = 1 ∧
    compute_score 2 4 3 = 1 - (2 : ℚ) / ((max (4 : ℤ) 3 : ℤ) : ℚ) :=
  ⟨(compute_score_formula 3 0 0).1 (by decide),
   (compute_score_formula 2 4 3).2 (by decide)⟩

/-- C1 counterexample: at distance 5 and sizes 4 and 3 (max size positive),
the size-normalized score is `-1/4`, outside `[0, 1]`, so the claim as
stated — for every distance the score lies in `[0, 1]` — is false. -/
theorem compute_score_out_of_range :
    0 < max (4 : ℤ) 3 ∧
    ¬(0 ≤ compute_score 5 4 3 ∧ compute_score 5 4 3 ≤ 1) := by
  have h : compute_score 5 4 3 = -(1 / 4 : ℚ) := by
    rw [compute_score_of_max_ne_zero 5 4 3 (by decide)]
    norm_num
  refine ⟨by decide, ?_⟩
  rw [h]
  intro hc
  exact absurd hc.1 (by norm_num)

/-- C1 (amended): for `0 ≤ d ≤ max(s1, s2)` with `max(s1, s2) > 0`, the
size-normalized score lies in `[0, 1]`, and it equals `1.0` iff `d = 0`. -/
theorem compute_score_bounds (d s1 s2 : ℤ) (hpos : 0 < max s1 s2)
    (hd0 : 0 ≤ d) (hdm : d ≤ max s1 s2) :
    0 ≤ compute_score d s1 s2 ∧ compute_score d s1 s2 ≤ 1 ∧
      (compute_score d s1 s2 = 1 ↔ d = 0) := by
  rw [compute_score_of_max_ne_zero d s1 s2 hpos.ne']
  have hm : (0 : ℚ) < ((max s1 s2 : ℤ) : ℚ) := by exact_mod_cast hpos
  have hdq : (0 : ℚ) ≤ (d : ℚ) := by exact_mod_cast hd0
  have hdm' : (d : ℚ) ≤ ((max s1 s2 : ℤ) : ℚ) := by exact_mod_cast hdm
  have hfrac1 : (d : ℚ) / ((max s1 s2 : ℤ) : ℚ) ≤ 1 := (div_le_one hm).mpr hdm'
  have hfrac0 : 0 ≤ (d : ℚ) / ((max s1 s2 : ℤ) : ℚ) := div_nonneg hdq hm.le
  refine ⟨by linarith, by linarith, ?_⟩
  constructor
  · intro h
    have hz : (d : ℚ) / ((max s1 s2 : ℤ) : ℚ) = 0 := by linarith
    rcases div_eq_zero_iff.mp hz with h0 | h0
    · exact_mod_cast h0
    · exact absurd h0 hm.ne'
  · intro h
    subst h
    simp

/-- Witness for C1 (amended) at `d = 1`, sizes 2 and 1. -/
theorem compute_score_bounds_witness :
    0 ≤ compute_score 1 2 1 ∧ compute_score 1 2 1 ≤ 1 ∧
      (compute_score 1 2 1 = 1 ↔ (1 : ℤ) = 0) :=
  compute_score_bounds 1 2 1 (by decide) (by decide) (by decide)

/-- C9: the tree path of a node is the chain of its ancestor labels from the
tree root down to, but excluding, the node itself, joined with `" > "`; it is
the empty string when the node is the root (no parent). -/
theorem tree_path_spec (n : SGNode) :
    _get_tree_path n = String.intercalate (" > ") n.ancestry.reverse ∧
    (n.ancestry = [] → _get_tree_path n = "") := by
  have hmain : _get_tree_path n = String.intercalate (" > ") n.ancestry.reverse := by
    unfold _get_tree_path
    rcases h : n.ancestry with _ | ⟨a, as⟩
    · simp [h]
      rfl
    · have hlen : ((n.className :: a :: as).reverse).length > 1 := by
        simp
      show (if ((n.className :: a :: as).reverse).length > 1 then
          String.intercalate (" > ") ((n.className :: a :: as).reverse).dropLast
        else "") = String.intercalate (" > ") (a :: as).reverse
      rw [if_pos hlen]
      congr 1
      rw [List.reverse_cons, List.dropLast_concat]
  refine ⟨hmain, fun h => ?_⟩
  rw [hmain, h]
  rfl

/-- Witness for C9 at a root node and at a depth-two node. -/
theorem tree_path_spec_witness :
    _get_tree_path ⟨"Select", false, []⟩ =
      String.intercalate (" > ") (List.reverse ([] : List String)) ∧
    _get_tree_path ⟨"Select", false, []⟩ = "" ∧
    _get_tree_path ⟨"Column", true, ["From", "Select"]⟩ =
      String.intercalate (" > ") (List.reverse ["From", "Select"]) :=
  ⟨(tree_path_spec ⟨"Select", false, []⟩).1,
   (tree_path_spec ⟨"Select", false, []⟩).2 rfl,
   (tree_path_spec ⟨"Column", true, ["From", "Select"]⟩).1⟩

theorem interpretEntry_entrySpec (p : Option SGNode × Option SGNode)
    (h : p.1 ≠ none ∨ p.2 ≠ none) : entrySpec p (interpretEntry p) := by
  obtain ⟨n1, n2⟩ := p
  rcases n1 with _ | a <;> rcases n2 with _ | b
  · simp at h
  · simp [entrySpec, interpretEntry, _get_label_opt]
  · simp [entrySpec, interpretEntry]
  · by_cases hl : _get_label a = _get_label b <;>
      simp [entrySpec, interpretEntry, hl]

theorem interpretEntry_presence (p : Option SGNode × Option SGNode) :
    ((interpretEntry p).source_node ≠ none ↔
      ((interpretEntry p).type = "match" ∨ (interpretEntry p).type = "rename" ∨
        (interpretEntry p).type = "delete")) ∧
    ((interpretEntry p).target_node ≠ none ↔
      ((interpretEntry p).type = "match" ∨ (interpretEntry p).type = "rename" ∨
        (interpretEntry p).type = "insert")) := by
  obtain ⟨n1, n2⟩ := p
  rcases n1 with _ | a <;> rcases n2 with _ | b
  · simp [interpretEntry]
  · simp [interpretEntry]
  · simp [interpretEntry]
  · by_cases hl : _get_label a = _get_label b <;> simp [interpretEntry, hl]

/-- C3: `interpret_mapping` produces one `EditOperation` per mapping entry, in
order: `(None, n2)` yields an insert with only the target label, `(n1, None)`
a delete with only the source label, two present nodes a match or rename
(by label equality) with both labels; hence `source_node` is present exactly
for match/rename/delete operations and `target_node` exactly for
match/rename/insert operations. -/
theorem interpret_mapping_spec (m : List (Option SGNode × Option SGNode))
    (h : ∀ p ∈ m, p.1 ≠ none ∨ p.2 ≠ none) :
    List.Forall₂ entrySpec m (interpret_mapping m) ∧
    ∀ op ∈ interpret_mapping m,
      (op.source_node ≠ none ↔
        (op.type = "match" ∨ op.type = "rename" ∨ op.type = "delete")) ∧
      (op.target_node ≠ none ↔
        (op.type = "match" ∨ op.type = "rename" ∨ op.type = "insert")) := by
  induction m with
  | nil =>
    exact ⟨List.Forall₂.nil, by simp [interpret_mapping]⟩
  | cons p rest ih =>
    have h1 := interpretEntry_entrySpec p (h p (List.mem_cons_self p rest))
    have hrest := ih (fun q hq => h q (List.mem_cons_of_mem p hq))
    refine ⟨List.Forall₂.cons h1 hrest.1, ?_⟩
    intro op hop
    simp only [interpret_mapping] at hop
    rcases List.mem_cons.mp hop with rfl | hmem
    · exact interpretEntry_presence p
    · exact hrest.2 op hmem

/-- Sample APTED mapping used to witness C3: a match, an insert, a delete and
a rename. -/
def sampleMapping : List (Option SGNode × Option SGNode) :=
  [(some ⟨"Select", false, []⟩, some ⟨"Select", false, []⟩),
   (none, some ⟨"Column", true, ["Select"]⟩),
   (some ⟨"Column", true, ["Select"]⟩, none),
   (some ⟨"Table", false, ["Select"]⟩, some ⟨"Join", false, ["Select"]⟩)]

/-- Witness for C3 on `sampleMapping`. -/
theorem interpret_mapping_spec_witness :
    (∀ p ∈ sampleMapping, p.1 ≠ none ∨ p.2 ≠ none) ∧
    (List.Forall₂ entrySpec sampleMapping (interpret_mapping sampleMapping) ∧
    ∀ op ∈ interpret_mapping sampleMapping,
      (op.source_node ≠ none ↔
        (op.type = "match" ∨ op.type = "rename" ∨ op.type = "delete")) ∧
      (op.target_node ≠ none ↔
        (op.type = "match" ∨ op.type = "rename" ∨ op.type = "insert"))) :=
  ⟨by decide, interpret_mapping_spec sampleMapping (by decide)⟩

/-- C10: with its default `raise_on_error=False`, `parse_sql` returns the
ANTLR parse tree for every input (it never raises); with
`raise_on_error=True` it returns the tree when no syntax error was collected
and raises the first collected error otherwise. -/
theorem parse_sql_spec {Tree : Type}
    (antlr_run : String → Tree × List ParseErrorData) (s : String) :
    parse_sql antlr_run s false = Except.ok (antlr_run s).1 ∧
    ((antlr_run s).2 = [] →
      parse_sql antlr_run s true = Except.ok (antlr_run s).1) ∧
    (∀ e rest, (antlr_run s).2 = e :: rest →
      parse_sql antlr_run s true = Except.error e) := by
  refine ⟨rfl, ?_, ?_⟩
  · intro h
    simp [parse_sql, h]
  · intro e rest h
    simp [parse_sql, h]

/-- Witness for C10: a run with no syntax errors and a run with one. -/
theorem parse_sql_spec_witness :
    parse_sql (fun _ : String => ((), ([] : List ParseErrorData))) ("x") false =
      Except.ok () ∧
    parse_sql (fun _ : String => ((), ([] : List ParseErrorData))) ("x") true =
      Except.ok () ∧
    parse_sql (fun _ : String => ((), [⟨"mismatched input", some 1, some 0⟩]))
        ("y") true =
      Except.error ⟨"mismatched input", some 1, some 0⟩ :=
  ⟨(parse_sql_spec (fun _ => (((), []) : Unit × List ParseErrorData)) ("x")).1,
   (parse_sql_spec (fun _ => (((), []) : Unit × List ParseErrorData)) ("x")).2.1 rfl,
   (parse_sql_spec (fun _ => ((), [⟨"mismatched input", some 1, some 0⟩]))
      ("y")).2.2 _ _ rfl⟩

/-- C6: `ComparisonService.compare` reports `FileNotFoundError` when either
file is missing (first path checked first), wraps a parse failure of either
file's content into `SQLParseError` carrying the file's basename and the
parse error (first file first), and otherwise returns the `ComparisonResult`
of `compare_trees`, which carries the alignment distance, the interpreted
edit operations in order, and the size-normalized score. -/
theorem comparison_service_compare_spec {Tree : Type}
    (exists? : String → Bool) (read_text : String → String)
    (antlr_run : String → Tree × List ParseErrorData)
    (align : Tree → Tree → ℤ × List (Option SGNode × Option SGNode))
    (size : Tree → ℤ) (file1 file2 : String) :
    (exists? file1 = false →
      ComparisonService.compare exists? read_text antlr_run align size file1 file2 =
        Except.error (CompareError.fileNotFound file1)) ∧
    (exists? file1 = true → exists? file2 = false →
      ComparisonService.compare exists? read_text antlr_run align size file1 file2 =
        Except.error (CompareError.fileNotFound file2)) ∧
    (exists? file1 = true → exists? file2 = true →
      ∀ e rest, (antlr_run (read_text file1)).2 = e :: rest →
        ComparisonService.compare exists? read_text antlr_run align size file1 file2 =
          Except.error (CompareError.sqlParseError (pathName file1) e)) ∧
    (exists? file1 = true → exists? file2 = true →
      (antlr_run (read_text file1)).2 = [] →
      ∀ e rest, (antlr_run (read_text file2)).2 = e :: rest →
        ComparisonService.compare exists? read_text antlr_run align size file1 file2 =
          Except.error (CompareError.sqlParseError (pathName file2) e)) ∧
    (exists? file1 = true → exists? file2 = true →
      (antlr_run (read_text file1)).2 = [] →
      (antlr_run (read_text file2)).2 = [] →
      let tree1 := (antlr_run (read_text file1)).1
      let tree2 := (antlr_run (read_text file2)).1
      ComparisonService.compare exists? read_text antlr_run align size file1 file2 =
        Except.ok (compare_trees align size tree1 tree2) ∧
      (compare_trees align size tree1 tree2).distance = (align tree1 tree2).1 ∧
      (compare_trees align size tree1 tree2).operations =
        interpret_mapping (align tree1 tree2).2 ∧
      (compare_trees align size tree1 tree2).score =
        compute_score (align tree1 tree2).1 (size tree1) (size tree2)) := by
  refine ⟨?_, ?_, ?_, ?_, ?_⟩
  · intro h1
    simp [ComparisonService.compare, h1]
  · intro h1 h2
    simp [ComparisonService.compare, h1, h2]
  · intro h1 h2 e rest he
    simp [ComparisonService.compare, h1, h2, parse_sql, he]
  · intro h1 h2 hok e rest he
    simp [ComparisonService.compare, h1, h2, parse_sql, hok, he]
  · intro h1 h2 hok1 hok2
    refine ⟨?_, rfl, rfl, rfl⟩
    simp [ComparisonService.compare, h1, h2, parse_sql, hok1, hok2]

/-- Witness for C6: a missing file, a file with a syntax error, and a
successful comparison, over a two-file universe of unit trees. -/
theorem comparison_service_compare_spec_witness :
    ComparisonService.compare (fun _ => false) (fun _ => "")
        (fun _ => (((), []) : Unit × List ParseErrorData)) (fun _ _ => (0, [])) (fun _ => 1) ("a.sql") ("b.sql") =
      Except.error (CompareError.fileNotFound ("a.sql")) ∧
    ComparisonService.compare (fun _ => true) (fun f => f)
        (fun s => (((), if s = ("q/bad.sql") then [⟨"boom", none, none⟩] else []) : Unit × List ParseErrorData))
        (fun _ _ => (0, [])) (fun _ => 1) ("q/bad.sql") ("q/good.sql") =
      Except.error
        (CompareError.sqlParseError (pathName ("q/bad.sql")) ⟨"boom", none, none⟩) ∧
    ComparisonService.compare (fun f => f ≠ ("b.sql")) (fun _ => "")
        (fun _ => (((), []) : Unit × List ParseErrorData)) (fun _ _ => (0, [])) (fun _ => 1) ("a.sql") ("b.sql") =
      Except.error (CompareError.fileNotFound ("b.sql")) ∧
    ComparisonService.compare (fun _ => true) (fun f => f)
        (fun s => (((), if s = ("q/bad.sql") then [⟨"boom", none, none⟩] else []) : Unit × List ParseErrorData))
        (fun _ _ => (0, [])) (fun _ => 1) ("q/good.sql") ("q/bad.sql") =
      Except.error
        (CompareError.sqlParseError (pathName ("q/bad.sql")) ⟨"boom", none, none⟩) ∧
    ComparisonService.compare (fun _ => true) (fun f => f)
        (fun _ => (((), []) : Unit × List ParseErrorData)) (fun _ _ => (0, [])) (fun _ => 1) ("a.sql") ("b.sql") =
      Except.ok (compare_trees (fun _ _ => (0, [])) (fun _ => 1) () ()) := by
  refine ⟨?_, ?_, ?_, ?_, ?_⟩
  · exact (comparison_service_compare_spec (fun _ => false)
      (fun _ => "") (fun _ => (((), []) : Unit × List ParseErrorData)) (fun _ _ => (0, [])) (fun _ => 1)
      ("a.sql") ("b.sql")).1 rfl
  · exact (comparison_service_compare_spec (fun _ => true)
      (fun f => f)
      (fun s => (((), if s = ("q/bad.sql") then [⟨"boom", none, none⟩] else []) : Unit × List ParseErrorData))
      (fun _ _ => (0, [])) (fun _ => 1) ("q/bad.sql") ("q/good.sql")).2.2.1
      rfl rfl ⟨"boom", none, none⟩ [] (by simp)
  · exact (comparison_service_compare_spec
      (fun f => decide (f ≠ ("b.sql"))) (fun _ => "") (fun _ => (((), []) : Unit × List ParseErrorData))
      (fun _ _ => (0, [])) (fun _ => 1) ("a.sql") ("b.sql")).2.1 (by decide)
      (by decide)
  · exact (comparison_service_compare_spec (fun _ => true)
      (fun f => f)
      (fun s => (((), if s = ("q/bad.sql") then [⟨"boom", none, none⟩] else []) : Unit × List ParseErrorData))
      (fun _ _ => (0, [])) (fun _ => 1) ("q/good.sql") ("q/bad.sql")).2.2.2.1
      rfl rfl (by simp) ⟨"boom", none, none⟩ [] (by simp)
  · exact ((comparison_service_compare_spec (fun _ => true)
      (fun f => f) (fun _ => (((), []) : Unit × List ParseErrorData)) (fun _ _ => (0, [])) (fun _ => 1)
      ("a.sql") ("b.sql")).2.2.2.2 rfl rfl rfl rfl).1

/-- C8: applying the inclusive max-distance threshold and then the top-N
truncation yields `min n (count of comparisons with distance <= k)` entries,
and the CLI's filter pipeline applies the threshold before the truncation,
never the reverse. -/
theorem filter_pipeline_spec (xs : List PairComparison) (k : ℤ) (n : ℕ)
    (_hk : 0 ≤ k) (_hn : 1 ≤ n) :
    (filter_by_top (filter_by_max_distance xs k) n).length =
      min n (xs.filter (fun c => c.distance ≤ k)).length ∧
    run_batch_filters xs (some k) (some n) =
      filter_by_top (filter_by_max_distance xs k) n := by
  constructor
  · simp [filter_by_top, filter_by_max_distance]
  · rfl

/-- Three comparisons used to witness C8. -/
def sampleComparisons : List PairComparison :=
  [⟨"a.sql", "b.sql", 0, []⟩, ⟨"a.sql", "c.sql", 2, []⟩,
   ⟨"b.sql", "c.sql", 9, []⟩]

/-- Witness for C8 on `sampleComparisons` with threshold 2 and top 1. -/
theorem filter_pipeline_spec_witness :
    (0 : ℤ) ≤ 2 ∧ 1 ≤ 1 ∧
    ((filter_by_top (filter_by_max_distance sampleComparisons 2) 1).length =
      min 1 (sampleComparisons.filter (fun c => c.distance ≤ 2)).length ∧
    run_batch_filters sampleComparisons (some 2) (some 1) =
      filter_by_top (filter_by_max_distance sampleComparisons 2) 1) :=
  ⟨by decide, by decide,
   filter_pipeline_spec sampleComparisons 2 1 (by decide) (by decide)⟩

/-- C7 evaluation: on a directory of two parseable files the batch
orchestrator emits one `PairComparison`, and the CSV formatter's per-row
attribute reads fail on it, because the `PairComparison` built by
`compare_all_pairs` carries no `score` (nor `edit_count`) attribute. -/
theorem format_batch_csv_missing_score :
    (compare_all_pairs ("d") ["a.sql", "b.sql"]
        (fun _ => (Except.ok () : Except String Unit)) (fun _ _ => 0) (fun _ _ => [])).comparisons.length
      = 1 ∧
    format_batch_csv (compare_all_pairs ("d") ["a.sql", "b.sql"]
        (fun _ => (Except.ok () : Except String Unit)) (fun _ _ => 0) (fun _ _ => [])) = none := by
  constructor
  · rfl
  · rfl

theorem mem_insortBy (lt : α → α → Bool) (x a : α) (l : List α) :
    a ∈ insortBy lt x l ↔ a = x ∨ a ∈ l := by
  induction l with
  | nil => simp [insortBy]
  | cons y ys ih =>
    cases h : lt y x
    · simp only [insortBy, h, Bool.false_eq_true, if_false, List.mem_cons]
    · simp only [insortBy, h, if_true, List.mem_cons, ih]
      tauto

theorem mem_pysort (lt : α → α → Bool) (a : α) (l : List α) :
    a ∈ pysort lt l ↔ a ∈ l := by
  induction l with
  | nil => simp [pysort]
  | cons y ys ih =>
    simp only [pysort, mem_insortBy, List.mem_cons, ih]

theorem length_insortBy (lt : α → α → Bool) (x : α) (l : List α) :
    (insortBy lt x l).length = l.length + 1 := by
  induction l with
  | nil => rfl
  | cons y ys ih =>
    cases h : lt y x
    · simp only [insortBy, h, Bool.false_eq_true, if_false, List.length_cons]
    · simp only [insortBy, h, if_true, List.length_cons, ih]

theorem length_pysort (lt : α → α → Bool) (l : List α) :
    (pysort lt l).length = l.length := by
  induction l with
  | nil => rfl
  | cons y ys ih =>
    simp only [pysort, length_insortBy, List.length_cons, ih]

theorem strLtAux_trans (a b c : List Char) (hab : strLtAux a b = true)
    (hbc : strLtAux b c = true) : strLtAux a c = true := by
  induction a generalizing b c with
  | nil =>
    cases b with
    | nil => simp [strLtAux] at hab
    | cons y ys =>
      cases c with
      | nil => simp [strLtAux] at hbc
      | cons z zs => simp [strLtAux]
  | cons x xs ih =>
    cases b with
    | nil => simp [strLtAux] at hab
    | cons y ys =>
      cases c with
      | nil => simp [strLtAux] at hbc
      | cons z zs =>
        rcases lt_trichotomy x y with hxy | hxy | hxy
        · rcases lt_trichotomy y z with hyz | hyz | hyz
          · have hxz : x < z := lt_trans hxy hyz
            simp [strLtAux, hxz]
          · subst hyz
            simp [strLtAux, hxy]
          · simp [strLtAux, not_lt_of_gt hyz, hyz] at hbc
        · subst hxy
          rcases lt_trichotomy x z with hxz | hxz | hxz
          · simp [strLtAux, hxz]
          · subst hxz
            simp only [strLtAux, lt_irrefl, if_false] at hab hbc ⊢
            exact ih ys zs hab hbc
          · simp [strLtAux, not_lt_of_gt hxz, hxz] at hbc
        · simp [strLtAux, not_lt_of_gt hxy, hxy] at hab

theorem strLtAux_conn (a b : List Char) (hab : strLtAux a b = false)
    (hba : strLtAux b a = false) : a = b := by
  induction a generalizing b with
  | nil =>
    cases b with
    | nil => rfl
    | cons y ys => simp [strLtAux] at hab
  | cons x xs ih =>
    cases b with
    | nil => simp [strLtAux] at hba
    | cons y ys =>
      rcases lt_trichotomy x y with hxy | hxy | hxy
      · simp [strLtAux, hxy] at hab
      · subst hxy
        simp only [strLtAux, lt_irrefl, if_false] at hab hba
        rw [ih ys hab hba]
      · simp [strLtAux, hxy] at hba

theorem strLt_trans (a b c : String) (hab : strLt a b = true)
    (hbc : strLt b c = true) : strLt a c = true :=
  strLtAux_trans a.data b.data c.data hab hbc

theorem strLt_conn (a b : String) (hab : strLt a b = false)
    (hba : strLt b a = false) : a = b :=
  String.ext (strLtAux_conn a.data b.data hab hba)

/-- Output order of a stable key sort: strictly smaller key first, and on
equal keys the input order `R` preserved. -/
def keyStableRel {β : Type} [LinearOrder β] (key : α → β) (R : α → α → Prop)
    (a b : α) : Prop :=
  key a < key b ∨ (key a = key b ∧ R a b)

theorem insortBy_pairwise_key {β : Type} [LinearOrder β] (key : α → β)
    (lt : α → α → Bool) (hlt : ∀ a b, lt a b = true ↔ key a < key b)
    (R : α → α → Prop) (x : α) (l : List α)
    (hl : l.Pairwise (keyStableRel key R)) (hx : ∀ z ∈ l, R x z) :
    (insortBy lt x l).Pairwise (keyStableRel key R) := by
  induction l with
  | nil => simp [insortBy, List.pairwise_singleton]
  | cons y ys ih =>
    rw [List.pairwise_cons] at hl
    cases h : lt y x
    · have hxy : key x ≤ key y := by
        refine le_of_not_lt (fun hc => ?_)
        rw [← hlt y x, h] at hc
        exact Bool.false_ne_true hc
      simp only [insortBy, h, Bool.false_eq_true, if_false]
      rw [List.pairwise_cons]
      refine ⟨?_, List.pairwise_cons.mpr hl⟩
      intro z hz
      rcases List.mem_cons.mp hz with rfl | hzys
      · rcases lt_or_eq_of_le hxy with hc | hc
        · exact Or.inl hc
        · exact Or.inr ⟨hc, hx z (List.mem_cons_self z ys)⟩
      · rcases hl.1 z hzys with hyz | ⟨hyz, _⟩
        · exact Or.inl (lt_of_le_of_lt hxy hyz)
        · rcases lt_or_eq_of_le (hxy.trans (le_of_eq hyz)) with hc | hc
          · exact Or.inl hc
          · exact Or.inr ⟨hc, hx z (List.mem_cons_of_mem y hzys)⟩
    · simp only [insortBy, h, if_true]
      rw [List.pairwise_cons]
      refine ⟨?_, ih hl.2 (fun z hz => hx z (List.mem_cons_of_mem y hz))⟩
      intro z hz
      rcases (mem_insortBy lt x z ys).mp hz with rfl | hzys
      · exact Or.inl ((hlt y z).mp h)
      · exact hl.1 z hzys

theorem pysort_pairwise_key {β : Type} [LinearOrder β] (key : α → β)
    (lt : α → α → Bool) (hlt : ∀ a b, lt a b = true ↔ key a < key b)
    (R : α → α → Prop) (l : List α) (hl : l.Pairwise R) :
    (pysort lt l).Pairwise (keyStableRel key R) := by
  induction l with
  | nil => exact List.Pairwise.nil
  | cons x xs ih =>
    rw [List.pairwise_cons] at hl
    exact insortBy_pairwise_key key lt hlt R x (pysort lt xs) (ih hl.2)
      (fun z hz => hl.1 z ((mem_pysort lt z xs).mp hz))

theorem insortBy_pairwise_total (lt : α → α → Bool)
    (htrans : ∀ a b c, lt a b = true → lt b c = true → lt a c = true)
    (hconn : ∀ a b, lt a b = false → lt b a = false → a = b)
    (x : α) (l : List α) (hl : l.Pairwise (fun a b => lt a b = true))
    (hx : ∀ z ∈ l, x ≠ z) :
    (insortBy lt x l).Pairwise (fun a b => lt a b = true) := by
  induction l with
  | nil => simp [insortBy, List.pairwise_singleton]
  | cons y ys ih =>
    rw [List.pairwise_cons] at hl
    cases h : lt y x
    · have hxy : lt x y = true := by
        cases hc : lt x y
        · exact absurd (hconn x y hc h) (hx y (List.mem_cons_self y ys))
        · rfl
      simp only [insortBy, h, Bool.false_eq_true, if_false]
      rw [List.pairwise_cons]
      refine ⟨?_, List.pairwise_cons.mpr hl⟩
      intro z hz
      rcases List.mem_cons.mp hz with rfl | hzys
      · exact hxy
      · exact htrans x y z hxy (hl.1 z hzys)
    · simp only [insortBy, h, if_true]
      rw [List.pairwise_cons]
      refine ⟨?_, ih hl.2 (fun z hz => hx z (List.mem_cons_of_mem y hz))⟩
      intro z hz
      rcases (mem_insortBy lt x z ys).mp hz with rfl | hzys
      · exact h
      · exact hl.1 z hzys

theorem pysort_pairwise_total (lt : α → α → Bool)
    (htrans : ∀ a b c, lt a b = true → lt b c = true → lt a c = true)
    (hconn : ∀ a b, lt a b = false → lt b a = false → a = b)
    (l : List α) (hl : l.Nodup) :
    (pysort lt l).Pairwise (fun a b => lt a b = true) := by
  induction l with
  | nil => exact List.Pairwise.nil
  | cons x xs ih =>
    rw [List.nodup_cons] at hl
    exact insortBy_pairwise_total lt htrans hconn x (pysort lt xs) (ih hl.2)
      (fun z hz hc => hl.1 (by rw [hc]; exact (mem_pysort lt z xs).mp hz))

theorem mem_combinations2 (l : List α) (p : α × α) (h : p ∈ combinations2 l) :
    p.1 ∈ l ∧ p.2 ∈ l := by
  induction l with
  | nil => cases h
  | cons x xs ih =>
    simp only [combinations2, List.mem_append, List.mem_map] at h
    rcases h with ⟨y, hy, rfl⟩ | h
    · exact ⟨List.mem_cons_self x xs, List.mem_cons_of_mem x hy⟩
    · exact ⟨List.mem_cons_of_mem x (ih h).1, List.mem_cons_of_mem x (ih h).2⟩

theorem pairwise_combinations2 (lt' : α → α → Prop) (l : List α)
    (hl : l.Pairwise lt') :
    (combinations2 l).Pairwise
      (fun p q => lt' p.1 q.1 ∨ (p.1 = q.1 ∧ lt' p.2 q.2)) := by
  induction l with
  | nil => exact List.Pairwise.nil
  | cons x xs ih =>
    rw [List.pairwise_cons] at hl
    simp only [combinations2]
    refine List.pairwise_append.mpr ⟨?_, ih hl.2, ?_⟩
    · rw [List.pairwise_map]
      exact hl.2.imp (fun hab => Or.inr ⟨rfl, hab⟩)
    · intro p hp q hq
      rcases List.mem_map.mp hp with ⟨y, _, rfl⟩
      exact Or.inl (hl.1 q.1 (mem_combinations2 xs q hq).1)

theorem two_mul_length_combinations2 (l : List α) :
    2 * (combinations2 l).length = l.length * (l.length - 1) := by
  induction l with
  | nil => rfl
  | cons x xs ih =>
    simp only [combinations2, List.length_append, List.length_map,
      List.length_cons]
    rcases hn : xs.length with _ | m
    · rw [hn] at ih
      omega
    · rw [hn] at ih
      -- expand the products so omega can treat m*m as an atom
      have e1 : (m + 1 + 1) * (m + 1 + 1 - 1) = m * m + 3 * m + 2 := by
        show (m + 1 + 1) * (m + 1) = m * m + 3 * m + 2
        ring
      have e2 : (m + 1) * (m + 1 - 1) = m * m + m := by
        show (m + 1) * m = m * m + m
        ring
      rw [e2] at ih
      omega

theorem length_combinations2 (l : List α) :
    (combinations2 l).length = l.length * (l.length - 1) / 2 := by
  have h := two_mul_length_combinations2 l
  omega

theorem parseFold_errors_sound {Tree : Type}
    (parseOf : String → Except String Tree) (fs : List String) (e : FileError)
    (he : e ∈ (parseFold parseOf fs).1) :
    parseOf e.file = Except.error e.error := by
  induction fs with
  | nil => cases he
  | cons f fs ih =>
    cases hp : parseOf f with
    | ok t =>
      simp only [parseFold, hp] at he
      exact ih he
    | error msg =>
      simp only [parseFold, hp] at he
      rcases List.mem_cons.mp he with rfl | hmem
      · exact hp
      · exact ih hmem

theorem parseFold_errors_complete {Tree : Type}
    (parseOf : String → Except String Tree) (fs : List String) (f : String)
    (m : String) (hf : f ∈ fs) (hp : parseOf f = Except.error m) :
    (⟨f, m⟩ : FileError) ∈ (parseFold parseOf fs).1 := by
  induction fs with
  | nil => cases hf
  | cons g gs ih =>
    rcases List.mem_cons.mp hf with rfl | hmem
    · simp only [parseFold, hp]
      exact List.mem_cons_self _ _
    · cases hq : parseOf g with
      | ok t =>
        simp only [parseFold, hq]
        exact ih hmem
      | error msg =>
        simp only [parseFold, hq]
        exact List.mem_cons_of_mem _ (ih hmem)

theorem parseFold_valid_ok {Tree : Type}
    (parseOf : String → Except String Tree) (fs : List String) (f : String)
    (hf : f ∈ (parseFold parseOf fs).2.map Prod.fst) :
    ∃ t, parseOf f = Except.ok t := by
  induction fs with
  | nil => cases hf
  | cons g gs ih =>
    cases hp : parseOf g with
    | ok t =>
      simp only [parseFold, hp, List.map] at hf
      rcases List.mem_cons.mp hf with rfl | hmem
      · exact ⟨t, hp⟩
      · exact ih hmem
    | error msg =>
      simp only [parseFold, hp] at hf
      exact ih hf

theorem parseFold_valid_sublist {Tree : Type}
    (parseOf : String → Except String Tree) (fs : List String) :
    List.Sublist ((parseFold parseOf fs).2.map Prod.fst) fs := by
  induction fs with
  | nil => exact List.Sublist.refl []
  | cons f fs ih =>
    cases hp : parseOf f with
    | ok t =>
      simp only [parseFold, hp, List.map]
      exact List.Sublist.cons₂ f ih
    | error msg =>
      simp only [parseFold, hp]
      exact List.Sublist.cons f ih

theorem parseFold_length_ok {Tree : Type}
    (parseOf : String → Except String Tree) (fs : List String) :
    (parseFold parseOf fs).2.length =
      (fs.filter (fun f => (parseOf f).isOk)).length := by
  induction fs with
  | nil => rfl
  | cons f fs ih =>
    cases hp : parseOf f with
    | ok t =>
      simp [parseFold, hp, Except.isOk, Except.toBool, List.filter, ih]
    | error msg =>
      simp [parseFold, hp, Except.isOk, Except.toBool, List.filter, ih]

/-- C4: the comparisons list of `compare_all_pairs` is sorted by distance
ascending, and among comparisons of equal distance the order is lexicographic
by the `(file1, file2)` pair: pairs are generated lexicographically over the
sorted list of successfully parsed files and the sort by distance is
stable. -/
theorem compare_all_pairs_sorted {Tree : Type} [Inhabited Tree]
    (directory : String) (files : List String)
    (parseOf : String → Except String Tree) (dist : Tree → Tree → ℤ)
    (mapOf : Tree → Tree → List (Option SGNode × Option SGNode))
    (hnd : files.Nodup) :
    (compare_all_pairs directory files parseOf dist mapOf).comparisons.Pairwise
      (fun a b => a.distance < b.distance ∨
        (a.distance = b.distance ∧
          (strLt a.file1 b.file1 = true ∨
            (a.file1 = b.file1 ∧ strLt a.file2 b.file2 = true)))) := by
  have hvalid : ((parseFold parseOf files).2.map Prod.fst).Nodup :=
    hnd.sublist (parseFold_valid_sublist parseOf files)
  have hsorted :
      (pysort strLt ((parseFold parseOf files).2.map Prod.fst)).Pairwise
        (fun a b => strLt a b = true) :=
    pysort_pairwise_total strLt strLt_trans strLt_conn _ hvalid
  have hpairs := pairwise_combinations2 (fun a b => strLt a b = true) _ hsorted
  have hcomps :
      (List.map (mkPairComparison dist mapOf (parseFold parseOf files).2)
        (combinations2
          (pysort strLt ((parseFold parseOf files).2.map Prod.fst)))).Pairwise
        (fun c d => strLt c.file1 d.file1 = true ∨
          (c.file1 = d.file1 ∧ strLt c.file2 d.file2 = true)) := by
    rw [List.pairwise_map]
    exact hpairs.imp (fun h => h)
  have hfinal := pysort_pairwise_key (fun c : PairComparison => c.distance)
    distLt (fun a b => by simp [distLt])
    (fun c d => strLt c.file1 d.file1 = true ∨
      (c.file1 = d.file1 ∧ strLt c.file2 d.file2 = true)) _ hcomps
  exact hfinal.imp (fun h => h)

/-- Witness for C4 over three unit-tree files with equal distances. -/
theorem compare_all_pairs_sorted_witness :
    (["a.sql", "b.sql", "c.sql"] : List String).Nodup ∧
    (compare_all_pairs ("d") ["a.sql", "b.sql", "c.sql"]
        (fun _ => (Except.ok () : Except String Unit)) (fun _ _ => 0)
        (fun _ _ => [])).comparisons.Pairwise
      (fun a b => a.distance < b.distance ∨
        (a.distance = b.distance ∧
          (strLt a.file1 b.file1 = true ∨
            (a.file1 = b.file1 ∧ strLt a.file2 b.file2 = true)))) :=
  ⟨by decide,
   compare_all_pairs_sorted ("d") ["a.sql", "b.sql", "c.sql"]
     (fun _ => (Except.ok () : Except String Unit)) (fun _ _ => 0) (fun _ _ => []) (by decide)⟩

/-- C5: over a directory yielding `n` successfully parsed files,
`compare_all_pairs` returns exactly `n*(n-1)/2` pair comparisons (empty when
`n <= 1`, which is not an error), no comparison mentions a file recorded in
the errors list, and every file whose parse raises is recorded in the errors
list with its message — the batch completes regardless. -/
theorem compare_all_pairs_count {Tree : Type} [Inhabited Tree]
    (directory : String) (files : List String)
    (parseOf : String → Except String Tree) (dist : Tree → Tree → ℤ)
    (mapOf : Tree → Tree → List (Option SGNode × Option SGNode)) (n : ℕ)
    (_hnd : files.Nodup)
    (hn : n = (files.filter (fun f => (parseOf f).isOk)).length) :
    (compare_all_pairs directory files parseOf dist mapOf).comparisons.length =
      n * (n - 1) / 2 ∧
    (n ≤ 1 →
      (compare_all_pairs directory files parseOf dist mapOf).comparisons = []) ∧
    (∀ c ∈ (compare_all_pairs directory files parseOf dist mapOf).comparisons,
      ∀ e ∈ (compare_all_pairs directory files parseOf dist mapOf).errors,
        c.file1 ≠ e.file ∧ c.file2 ≠ e.file) ∧
    (∀ f ∈ files, ∀ m, parseOf f = Except.error m →
      (⟨f, m⟩ : FileError) ∈
        (compare_all_pairs directory files parseOf dist mapOf).errors) := by
  have hcount :
      (compare_all_pairs directory files parseOf dist mapOf).comparisons.length =
        n * (n - 1) / 2 := by
    show (pysort distLt
      (List.map (mkPairComparison dist mapOf (parseFold parseOf files).2)
        (combinations2
          (pysort strLt ((parseFold parseOf files).2.map Prod.fst))))).length =
      n * (n - 1) / 2
    rw [length_pysort, List.length_map, length_combinations2, length_pysort,
      List.length_map, parseFold_length_ok, ← hn]
  refine ⟨hcount, ?_, ?_, ?_⟩
  · intro h1
    have h2 : n - 1 = 0 := by omega
    refine List.length_eq_zero.mp ?_
    rw [hcount, h2, Nat.mul_zero]
  · intro c hc e he
    have hc' : c ∈ List.map (mkPairComparison dist mapOf (parseFold parseOf files).2)
        (combinations2
          (pysort strLt ((parseFold parseOf files).2.map Prod.fst))) :=
      (mem_pysort distLt c _).mp hc
    obtain ⟨p, hp, rfl⟩ := List.mem_map.mp hc'
    have hmem := mem_combinations2 _ p hp
    have hv1 : p.1 ∈ (parseFold parseOf files).2.map Prod.fst :=
      (mem_pysort strLt p.1 _).mp hmem.1
    have hv2 : p.2 ∈ (parseFold parseOf files).2.map Prod.fst :=
      (mem_pysort strLt p.2 _).mp hmem.2
    obtain ⟨t1, ht1⟩ := parseFold_valid_ok parseOf files p.1 hv1
    obtain ⟨t2, ht2⟩ := parseFold_valid_ok parseOf files p.2 hv2
    have he' : parseOf e.file = Except.error e.error :=
      parseFold_errors_sound parseOf files e he
    constructor
    · show p.1 ≠ e.file
      intro heq
      rw [heq, he'] at ht1
      cases ht1
    · show p.2 ≠ e.file
      intro heq
      rw [heq, he'] at ht2
      cases ht2
  · intro f hf m hm
    exact parseFold_errors_complete parseOf files f m hf hm

/-- Witness for C5: three files of which one fails to parse. -/
theorem compare_all_pairs_count_witness :
    (["a.sql", "b.sql", "bad.sql"] : List String).Nodup ∧
    (2 : ℕ) = ((["a.sql", "b.sql", "bad.sql"] : List String).filter
      (fun f => ((if f = ("bad.sql") then Except.error ("boom")
        else Except.ok ()) : Except String Unit).isOk)).length ∧
    ((compare_all_pairs ("d") ["a.sql", "b.sql", "bad.sql"]
        (fun f => (if f = ("bad.sql") then Except.error ("boom") else Except.ok () : Except String Unit))
        (fun _ _ => 0) (fun _ _ => [])).comparisons.length = 2 * (2 - 1) / 2 ∧
    ((2 : ℕ) ≤ 1 →
      (compare_all_pairs ("d") ["a.sql", "b.sql", "bad.sql"]
        (fun f => (if f = ("bad.sql") then Except.error ("boom") else Except.ok () : Except String Unit))
        (fun _ _ => 0) (fun _ _ => [])).comparisons = []) ∧
    (∀ c ∈ (compare_all_pairs ("d") ["a.sql", "b.sql", "bad.sql"]
        (fun f => (if f = ("bad.sql") then Except.error ("boom") else Except.ok () : Except String Unit))
        (fun _ _ => 0) (fun _ _ => [])).comparisons,
      ∀ e ∈ (compare_all_pairs ("d") ["a.sql", "b.sql", "bad.sql"]
        (fun f => (if f = ("bad.sql") then Except.error ("boom") else Except.ok () : Except String Unit))
        (fun _ _ => 0) (fun _ _ => [])).errors,
        c.file1 ≠ e.file ∧ c.file2 ≠ e.file) ∧
    (∀ f ∈ (["a.sql", "b.sql", "bad.sql"] : List String), ∀ m,
      (if f = ("bad.sql") then Except.error ("boom")
        else Except.ok ()) = (Except.error m : Except String Unit) →
      (⟨f, m⟩ : FileError) ∈
        (compare_all_pairs ("d") ["a.sql", "b.sql", "bad.sql"]
        (fun f => (if f = ("bad.sql") then Except.error ("boom") else Except.ok () : Except String Unit))
        (fun _ _ => 0) (fun _ _ => [])).errors)) :=
  ⟨by decide, by decide,
   compare_all_pairs_count ("d") ["a.sql", "b.sql", "bad.sql"]
     (fun f => (if f = ("bad.sql") then Except.error ("boom") else Except.ok () : Except String Unit))
     (fun _ _ => 0) (fun _ _ => []) 2 (by decide) (by decide)⟩
